import Mathlib

/-!
# Verification of the MCP tool-invocation host (`McpHost`)

Shallow embedding of the `McpHost` class (server connection management,
permission-gated tool routing, and the human-approval ledger) together with
the pieces of its environment the host observes.

Modelling conventions:
* Timestamps are epoch milliseconds (`Nat`); the ISO-string round trip of the
  source is the identity on instants, and `new Date() > new Date(e)` is the
  strict order on instants. The clock is constant within one host call, so
  `Date.now() - startTime` evaluates to `0`.
* The permission middleware's `checkPermission`, the MCP client's `callTool`,
  subprocess connection, and file persistence are external effects; each is
  passed in as an oracle of type `Except String _` (`.error` models a thrown
  exception carrying its message).
* `Map<string, _>` is an insertion-ordered association list: `set` on an
  existing key updates in place, otherwise appends; `values()` iterates in
  insertion order.
* Calls the host makes to the audit hook (`logPermissionDecision`) and to the
  MCP client's tool invocation are recorded as an event trace, so "the hook
  fired exactly once" and "no subprocess tool invocation occurred" are
  statements about that trace.
-/

/-- Risk classification of a tool call (`'LOW' | 'MEDIUM' | 'HIGH'`). -/
inductive RiskLevel
  | low
  | medium
  | high
deriving DecidableEq, Repr

/-- Structure `PermissionCheckResult` produced by the permission middleware. -/
structure PermissionCheckResult where
  allowed : Bool
  riskLevel : RiskLevel
  reason : String
  requiresApproval : Bool
deriving DecidableEq, Repr

/-- Structure `ToolCallRequest`: a tool invocation order flowing through the host.
`parameters` is the opaque key/value argument record. -/
structure ToolCallRequest where
  toolName : String
  parameters : List (String × String)
  userId : Option String
  sessionId : Option String
  requestId : String
deriving DecidableEq, Repr

/-- Approval ticket status: `'pending' | 'approved' | 'rejected' | 'expired'`. -/
inductive ApprovalStatus
  | pending
  | approved
  | rejected
  | expired
deriving DecidableEq, Repr

/-- The string the source interpolates into `Approval already ${status}`. -/
def ApprovalStatus.label : ApprovalStatus → String
  | .pending => "pending"
  | .approved => "approved"
  | .rejected => "rejected"
  | .expired => "expired"

/-- Structure `ApprovalRequest`: an approval ticket in the ledger. -/
structure ApprovalRequest where
  id : String
  toolCall : ToolCallRequest
  permissionCheck : PermissionCheckResult
  status : ApprovalStatus
  createdAt : Nat
  expiresAt : Nat
  resolvedAt : Option Nat
  resolvedBy : Option String
deriving DecidableEq, Repr

/-- A tool advertised by a connected MCP server
(`{ name, description, inputSchema }`; the schema is opaque). -/
structure ToolDef where
  name : String
  description : String
deriving DecidableEq, Repr

/-- Structure `McpServerConfig`: static descriptor of a capability server. -/
structure McpServerConfig where
  name : String
  command : String
  args : List String
  enabled : Bool
  description : Option String
deriving DecidableEq, Repr

/-- Structure `McpServerInstance`: a live connection paired with its descriptor. -/
structure McpServerInstance where
  config : McpServerConfig
  connected : Bool
  tools : List ToolDef
deriving DecidableEq, Repr

/-- Payload of the `data` field of a `ToolCallResponse`: either the raw tool
result, or the approval bundle `{approvalId, expiresAt, toolCall,
permissionCheck}` returned when a ticket was parked. -/
inductive ResponseData
  | result (value : String)
  | approvalInfo (approvalId : String) (expiresAt : Nat)
      (toolCall : ToolCallRequest) (permissionCheck : PermissionCheckResult)
deriving DecidableEq, Repr

/-- Structure `ToolCallResponse`: the uniform response of `callTool`. -/
structure ToolCallResponse where
  requestId : String
  success : Bool
  data : Option ResponseData
  error : Option String
  executionTime : Nat
  approvalRequired : Bool
  timestamp : Nat
deriving DecidableEq, Repr

/-- Audit outcome passed to `logPermissionDecision`. -/
inductive AuditOutcome
  | approved
  | denied
deriving DecidableEq, Repr

/-- Observable side effects of a host operation: an audit-hook invocation, or
an actual tool invocation on a connected server's MCP client. -/
inductive HostEvent
  | audit (toolName : String) (decision : PermissionCheckResult) (outcome : AuditOutcome)
  | execCall (request : ToolCallRequest) (serverName : String)
deriving DecidableEq, Repr

/-- Does the event represent a subprocess tool invocation? -/
def HostEvent.isExec : HostEvent → Bool
  | .execCall _ _ => true
  | .audit _ _ _ => false

/-- Insertion-ordered association-list lookup (`Map.get`). -/
def lookupA {β : Type} (m : List (String × β)) (k : String) : Option β :=
  match m.find? (fun p => p.1 == k) with
  | some p => some p.2
  | none => none

/-- Insertion-ordered association-list update (`Map.set`): replaces in place
when the key is present, appends otherwise. -/
def insertA {β : Type} : List (String × β) → String → β → List (String × β)
  | [], k, v => [(k, v)]
  | p :: rest, k, v =>
      if p.1 == k then (k, v) :: rest else p :: insertA rest k v

/-- Association-list removal (`Map.delete`). -/
def eraseA {β : Type} (m : List (String × β)) (k : String) : List (String × β) :=
  m.filter (fun p => p.1 != k)

/-- The mutable state of one `McpHost` instance. `stateFile` is the content of
the persisted-state file (`none` until the first successful write);
`hasStateFilePath` records whether a `stateFilePath` was supplied. -/
structure HostState where
  servers : List (String × McpServerInstance)
  pendingApprovals : List (String × ApprovalRequest)
  approvalTimeout : Nat
  serverConfigs : List McpServerConfig
  stateFile : Option (List (String × Bool))
  hasStateFilePath : Bool
deriving DecidableEq, Repr

/-- The `McpHost` constructor: empty registries and the fixed
`approvalTimeout = 300000` ms (5 minutes). -/
def McpHost.init (serverConfigs : List McpServerConfig) (hasStateFilePath : Bool) : HostState :=
  { servers := []
    pendingApprovals := []
    approvalTimeout := 300000
    serverConfigs := serverConfigs
    stateFile := none
    hasStateFilePath := hasStateFilePath }

/-- Oracle for the outcome of spawning + handshaking one MCP server:
`ok tools` is a successful connection advertising `tools`; `error` is a
thrown connection failure. -/
abbrev ConnectOracle := String → Except String (List ToolDef)

/-- Oracle for one MCP-client tool invocation (`client.callTool`): the tool's
raw result on success, the thrown message on failure. -/
abbrev ExecOracle := ToolCallRequest → Except String String

/-- Method `McpHost.connectServer` restricted to its state effect: on success the
server registry gains (or overwrites) an entry for `config.name` holding the
descriptor, `connected = true`, and the advertised tool catalog; on failure
the error is rethrown and the registry is untouched. -/
def connectServer (st : HostState) (outcome : Except String (List ToolDef))
    (config : McpServerConfig) : Except String Unit × HostState :=
  match outcome with
  | .error e => (.error e, st)
  | .ok tools =>
      (.ok (),
       { st with servers := (insertA st.servers config.name
           { config := config, connected := true, tools := tools }) })

/-- Method `McpHost.disconnectServer`: close/kill errors are swallowed and the
`finally` block always removes the registry entry, so the operation never
throws and its state effect is the removal. -/
def disconnectServer (st : HostState) (name : String) : HostState :=
  { st with servers := eraseA st.servers name }

/-- Method `McpHost.connectAll`: attempts each enabled descriptor and waits for all
attempts to settle (`Promise.allSettled`); a rejection is recorded but never
aborts the other attempts. Each attempt touches only its own registry key, so
the settled result is the left fold of the individual attempts. -/
def connectAll (st : HostState) (outcomes : ConnectOracle) : HostState :=
  (st.serverConfigs.filter (fun c => c.enabled)).foldl
    (fun s config => (connectServer s (outcomes config.name) config).2) st

/-- Method `McpHost.persistServerState`: no-op without a state-file path; otherwise
writes the full `{name → enabled}` snapshot, or rethrows the write failure
leaving the file as it was. -/
def persistServerState (st : HostState) (outcome : Except String Unit) :
    Except String Unit × HostState :=
  if st.hasStateFilePath then
    match outcome with
    | .error e => (.error e, st)
    | .ok _ =>
        (.ok (),
         { st with stateFile := (some
             (st.serverConfigs.map (fun c => (c.name, c.enabled)))) })
  else
    (.ok (), st)

/-- In-place mutation of the `enabled` flag of the first descriptor named
`name` (the object `find` returned). -/
def setConfigEnabled : List McpServerConfig → String → Bool → List McpServerConfig
  | [], _, _ => []
  | c :: rest, name, b =>
      if c.name == name then { c with enabled := b } :: rest
      else c :: setConfigEnabled rest name b

/-- Method `McpHost.setServerEnabled`: unknown name throws; same value is a no-op;
otherwise flip the flag, connect or disconnect, persist, and on any failure
restore the flag to its prior value and rethrow. -/
def setServerEnabled (st : HostState) (connectOutcome : Except String (List ToolDef))
    (persistOutcome : Except String Unit) (name : String) (enabled : Bool) :
    Except String Unit × HostState :=
  match st.serverConfigs.find? (fun c => c.name == name) with
  | none => (.error ("Unknown MCP server: " ++ name), st)
  | some config =>
      if config.enabled == enabled then
        (.ok (), st)
      else
        let previous := config.enabled
        let st1 := { st with serverConfigs := setConfigEnabled st.serverConfigs name enabled }
        let attempt : Except String Unit × HostState :=
          if enabled then
            connectServer st1 connectOutcome { config with enabled := enabled }
          else
            (.ok (), disconnectServer st1 name)
        match attempt with
        | (.error e, st2) =>
            (.error e, { st2 with serverConfigs := setConfigEnabled st2.serverConfigs name previous })
        | (.ok _, st2) =>
            match persistServerState st2 persistOutcome with
            | (.error e, st3) =>
                (.error e, { st3 with serverConfigs := setConfigEnabled st3.serverConfigs name previous })
            | (.ok _, st3) => (.ok (), st3)

/-- Method `McpHost.executeTool`: find the first registered server whose catalog
advertises the tool (registry insertion order); throw `No MCP server found`
when none does; otherwise invoke the tool on that server's client. The emitted
trace records the client invocation whether it succeeds or throws. -/
def executeTool (servers : List (String × McpServerInstance)) (exec : ExecOracle)
    (request : ToolCallRequest) : Except String String × List HostEvent :=
  match servers.find? (fun p => p.2.tools.any (fun t => t.name == request.toolName)) with
  | none => (.error ("No MCP server found for tool: " ++ request.toolName), [])
  | some (serverName, _) =>
      (exec request, [.execCall request serverName])

/-- Method `McpHost.createApprovalRequest`: fresh pending ticket whose id embeds the
creation instant and a random suffix, with
`expiresAt = now + approvalTimeout`. -/
def createApprovalRequest (now timeout : Nat) (rand : String)
    (toolCall : ToolCallRequest) (permissionCheck : PermissionCheckResult) : ApprovalRequest :=
  { id := "approval_" ++ toString now ++ "_" ++ rand
    toolCall := toolCall
    permissionCheck := permissionCheck
    status := .pending
    createdAt := now
    expiresAt := now + timeout
    resolvedAt := none
    resolvedBy := none }

/-- Result of one `callTool` invocation: the response, the post-state, and the
trace of audit-hook and client invocations. -/
structure CallResult where
  resp : ToolCallResponse
  state : HostState
  events : List HostEvent
deriving DecidableEq, Repr

/-- Method `McpHost.callTool`: permission check, then denial / approval parking /
execution, with every thrown exception of the body caught and converted into
a failure response. `check` is the outcome of the middleware's
`checkPermission` for this request, `rand` the random id suffix drawn if a
ticket is created. -/
def callTool (st : HostState) (now : Nat) (check : Except String PermissionCheckResult)
    (exec : ExecOracle) (rand : String) (request : ToolCallRequest) : CallResult :=
  match check with
  | .error e =>
      { resp := { requestId := request.requestId, success := false, data := none,
                  error := some e, executionTime := 0, approvalRequired := false,
                  timestamp := now }
        state := st, events := [] }
  | .ok permissionCheck =>
      if !permissionCheck.allowed then
        { resp := { requestId := request.requestId, success := false, data := none,
                    error := some ("Permission denied: " ++ permissionCheck.reason),
                    executionTime := 0,
                    approvalRequired := permissionCheck.requiresApproval,
                    timestamp := now }
          state := st
          events := [.audit request.toolName permissionCheck .denied] }
      else if permissionCheck.requiresApproval then
        let approval := createApprovalRequest now st.approvalTimeout rand request permissionCheck
        { resp := { requestId := request.requestId, success := false,
                    data := some (.approvalInfo approval.id approval.expiresAt
                                    request permissionCheck),
                    error := some "Approval required", executionTime := 0,
                    approvalRequired := true, timestamp := now }
          state := { st with pendingApprovals := insertA st.pendingApprovals approval.id approval }
          events := [] }
      else
        match executeTool st.servers exec request with
        | (.ok value, evs) =>
            { resp := { requestId := request.requestId, success := true,
                        data := some (.result value), error := none,
                        executionTime := 0, approvalRequired := false, timestamp := now }
              state := st
              events := evs ++ [.audit request.toolName permissionCheck .approved] }
        | (.error e, evs) =>
            { resp := { requestId := request.requestId, success := false, data := none,
                        error := some e, executionTime := 0, approvalRequired := false,
                        timestamp := now }
              state := st, events := evs }

deriving instance DecidableEq for Except

/-- Result of one `approveToolCall` invocation (`res = .error m` models the
method throwing with message `m`). -/
structure ApproveResult where
  res : Except String ToolCallResponse
  state : HostState
  events : List HostEvent
deriving DecidableEq, Repr

/-- Method `McpHost.approveToolCall`: throws on unknown id, non-pending status, or
expiry (marking the ticket expired in place); otherwise marks it approved,
executes the parked call, and deletes the ticket only after the execution
returned. -/
def approveToolCall (st : HostState) (now : Nat) (exec : ExecOracle)
    (approvalId approvedBy : String) : ApproveResult :=
  match lookupA st.pendingApprovals approvalId with
  | none =>
      { res := .error ("Approval request not found: " ++ approvalId), state := st, events := [] }
  | some approval =>
      if approval.status != .pending then
        { res := .error ("Approval already " ++ approval.status.label), state := st, events := [] }
      else if approval.expiresAt < now then
        { res := .error "Approval request expired"
          state := { st with pendingApprovals := (insertA st.pendingApprovals approvalId
                       { approval with status := .expired }) }
          events := [] }
      else
        let resolved := { approval with
                          status := ApprovalStatus.approved
                          resolvedAt := some now
                          resolvedBy := some approvedBy }
        let st1 := { st with pendingApprovals := insertA st.pendingApprovals approvalId resolved }
        match executeTool st1.servers exec approval.toolCall with
        | (.error e, evs) => { res := .error e, state := st1, events := evs }
        | (.ok value, evs) =>
            { res := .ok { requestId := approval.toolCall.requestId, success := true,
                           data := some (.result value), error := none, executionTime := 0,
                           approvalRequired := false, timestamp := now }
              state := { st1 with pendingApprovals := eraseA st1.pendingApprovals approvalId }
              events := evs }

/-- Result of one `rejectToolCall` invocation. -/
structure RejectResult where
  res : Except String Unit
  state : HostState
  events : List HostEvent
deriving DecidableEq, Repr

/-- Method `McpHost.rejectToolCall`: throws on unknown id or non-pending status;
otherwise marks the ticket rejected and deletes it. There is no expiry check
on this path. The net map effect of mutate-then-delete is the removal. -/
def rejectToolCall (st : HostState) (now : Nat) (approvalId rejectedBy : String) : RejectResult :=
  match lookupA st.pendingApprovals approvalId with
  | none =>
      { res := .error ("Approval request not found: " ++ approvalId), state := st, events := [] }
  | some approval =>
      if approval.status != .pending then
        { res := .error ("Approval already " ++ approval.status.label), state := st, events := [] }
      else
        { res := .ok ()
          state := { st with pendingApprovals := eraseA st.pendingApprovals approvalId }
          events := [] }

/-- Method `McpHost.getPendingApprovals`: the ledger values whose status is still
`pending`, in insertion order. The method takes no clock input. -/
def getPendingApprovals (st : HostState) : List ApprovalRequest :=
  (st.pendingApprovals.map Prod.snd).filter (fun a => a.status == .pending)

/-- One row of `getStatus().servers`. -/
structure ServerStatusEntry where
  id : String
  name : String
  description : String
  enabled : Bool
  connected : Bool
  toolsCount : Nat
  tools : List ToolDef
deriving DecidableEq, Repr

/-- Aggregate result of `McpHost.getStatus`. -/
structure HostStatus where
  connected : Nat
  servers : List ServerStatusEntry
deriving DecidableEq, Repr

/-- Method `McpHost.getStatus`: one catalog row per configured descriptor (connected
or not), and the count of rows whose instance is live. -/
def getStatus (st : HostState) : HostStatus :=
  let servers := st.serverConfigs.map (fun config =>
    match lookupA st.servers config.name with
    | some inst =>
        { id := config.name, name := config.name
          description := config.description.getD ("MCP Server " ++ config.name)
          enabled := config.enabled, connected := inst.connected
          toolsCount := inst.tools.length, tools := inst.tools : ServerStatusEntry }
    | none =>
        { id := config.name, name := config.name
          description := config.description.getD ("MCP Server " ++ config.name)
          enabled := config.enabled, connected := false
          toolsCount := 0, tools := [] : ServerStatusEntry })
  { connected := (servers.filter (fun s => s.connected)).length, servers := servers }

/-- The two resolution actions of the approval ledger. -/
inductive ResolveAction
  | approve
  | reject
deriving DecidableEq, Repr

/-- Resolution record shared by the two resolution entry points: whether the
call returned normally, the post-state, and the emitted trace. -/
structure ResolveResult where
  ok : Bool
  state : HostState
  events : List HostEvent
deriving DecidableEq, Repr

/-- Dispatch a resolution to `approveToolCall` or `rejectToolCall`. -/
def resolveTicket (action : ResolveAction) (st : HostState) (now : Nat)
    (exec : ExecOracle) (approvalId actor : String) : ResolveResult :=
  match action with
  | .approve =>
      let r := approveToolCall st now exec approvalId actor
      { ok := r.res.isOk, state := r.state, events := r.events }
  | .reject =>
      let r := rejectToolCall st now approvalId actor
      { ok := r.res.isOk, state := r.state, events := r.events }

/-! ## Association-list lemmas -/

theorem lookupA_insertA_self {β : Type} (m : List (String × β)) (k : String) (v : β) :
    lookupA (insertA m k v) k = some v := by
  induction m with
  | nil => simp [insertA, lookupA]
  | cons p rest ih =>
      by_cases h : p.1 = k
      · simp [insertA, lookupA, h]
      · simp only [insertA, lookupA] at *
        rw [if_neg (by simp [h])]
        simp only [List.find?]
        rw [show ((p.1 == k) = false) by simp [h]]
        exact ih

theorem lookupA_insertA_ne {β : Type} (m : List (String × β)) (k k' : String) (v : β)
    (h : k' ≠ k) : lookupA (insertA m k v) k' = lookupA m k' := by
  induction m with
  | nil => simp [insertA, lookupA, List.find?, show ((k == k') = false) by simp [Ne.symm h]]
  | cons p rest ih =>
      by_cases hp : p.1 = k
      · simp only [insertA, lookupA]
        rw [if_pos (by simp [hp])]
        simp only [List.find?]
        rw [show ((k == k') = false) by simp [Ne.symm h],
            show ((p.1 == k') = false) by simp [hp, Ne.symm h]]
      · simp only [insertA, lookupA] at *
        rw [if_neg (by simp [hp])]
        simp only [List.find?]
        cases hpk : (p.1 == k') with
        | true => rfl
        | false => exact ih

theorem lookupA_eraseA_self {β : Type} (m : List (String × β)) (k : String) :
    lookupA (eraseA m k) k = none := by
  induction m with
  | nil => simp [eraseA, lookupA]
  | cons p rest ih =>
      by_cases h : p.1 = k
      · simpa [eraseA, lookupA, h] using ih
      · simp only [eraseA, lookupA, List.filter] at *
        rw [show ((p.1 != k) = true) by simp [h]]
        simp only [List.find?]
        rw [show ((p.1 == k) = false) by simp [h]]
        exact ih

theorem lookupA_eraseA_ne {β : Type} (m : List (String × β)) (k k' : String)
    (h : k' ≠ k) : lookupA (eraseA m k) k' = lookupA m k' := by
  induction m with
  | nil => simp [eraseA, lookupA]
  | cons p rest ih =>
      by_cases hp : p.1 = k
      · simp only [eraseA, lookupA, List.filter] at *
        rw [show ((p.1 != k) = false) by simp [hp]]
        simp only [List.find?]
        rw [show ((p.1 == k') = false) by simp [hp, Ne.symm h]]
        exact ih
      · simp only [eraseA, lookupA, List.filter] at *
        rw [show ((p.1 != k) = true) by simp [hp]]
        simp only [List.find?]
        cases hpk : (p.1 == k') with
        | true => rfl
        | false => exact ih

/-! ## Concrete fixtures for witnesses and counterexamples -/

/-- A sample tool-call request. -/
def sampleRequest : ToolCallRequest :=
  { toolName := "send-email"
    parameters := [("to", "ops"), ("subject", "hi")]
    userId := some "u1"
    sessionId := none
    requestId := "req-1" }

/-- A denial decision, as for a filesystem path outside the allow-list. -/
def deniedDecision : PermissionCheckResult :=
  { allowed := false, riskLevel := .medium
    reason := "path outside allowed drives", requiresApproval := false }

/-- A HIGH-risk decision that requires human approval. -/
def highRiskDecision : PermissionCheckResult :=
  { allowed := true, riskLevel := .high
    reason := "high-risk email send", requiresApproval := true }

/-- A LOW-risk decision that is auto-approved. -/
def lowRiskDecision : PermissionCheckResult :=
  { allowed := true, riskLevel := .low
    reason := "auto-approved", requiresApproval := false }

/-- A pending ticket that was created at instant 0 and expires at 1000. -/
def staleTicket : ApprovalRequest :=
  { id := "t1", toolCall := sampleRequest, permissionCheck := highRiskDecision
    status := .pending, createdAt := 0, expiresAt := 1000
    resolvedAt := none, resolvedBy := none }

/-- A host whose ledger holds exactly `staleTicket`. -/
def staleHost : HostState :=
  { McpHost.init [] false with pendingApprovals := [("t1", staleTicket)] }

/-! ## Claim theorems -/

/-- C1: whenever the permission evaluator returns a decision with
`allowed = false`, `callTool` answers with `success = false` and an error
string carrying the evaluator's reason, performs no subprocess tool
invocation, leaves the host state untouched, and fires the audit hook exactly
once with outcome `denied`. -/
theorem callTool_denied_audits_once_no_exec
    (st : HostState) (now : Nat) (exec : ExecOracle) (rand : String)
    (request : ToolCallRequest) (pc : PermissionCheckResult)
    (hpc : pc.allowed = false) :
    (callTool st now (.ok pc) exec rand request).resp.success = false ∧
    (callTool st now (.ok pc) exec rand request).resp.error =
      some ("Permission denied: " ++ pc.reason) ∧
    (callTool st now (.ok pc) exec rand request).events =
      [HostEvent.audit request.toolName pc .denied] ∧
    (∀ e ∈ (callTool st now (.ok pc) exec rand request).events, e.isExec = false) ∧
    (callTool st now (.ok pc) exec rand request).state = st := by
  simp [callTool, hpc, HostEvent.isExec]

/-- Witness for C1 at a concrete denied request. -/
theorem callTool_denied_audits_once_no_exec_witness :
    deniedDecision.allowed = false ∧
    (callTool (McpHost.init [] false) 42 (.ok deniedDecision)
        (fun _ => .ok "v") "r" sampleRequest).resp.error =
      some ("Permission denied: " ++ deniedDecision.reason) :=
  ⟨by decide,
   (callTool_denied_audits_once_no_exec (McpHost.init [] false) 42
     (fun _ => .ok "v") "r" sampleRequest deniedDecision (by decide)).2.1⟩

/-- C9: a ticket parked by `callTool` is created with
`expiresAt = createdAt + approvalTimeout`, and the constructor fixes
`approvalTimeout` at 300000 ms (300 s); so on a default host every ticket —
in particular one for a HIGH-risk call — expires exactly 300 s after
creation. -/
theorem approval_ticket_expiry_default_timeout
    (st : HostState) (now : Nat) (exec : ExecOracle) (rand : String)
    (request : ToolCallRequest) (pc : PermissionCheckResult)
    (ha : pc.allowed = true) (hr : pc.requiresApproval = true) :
    (∃ t, lookupA (callTool st now (.ok pc) exec rand request).state.pendingApprovals
          ("approval_" ++ toString now ++ "_" ++ rand) = some t ∧
        t.createdAt = now ∧
        t.expiresAt = t.createdAt + st.approvalTimeout ∧
        t.status = .pending) ∧
    (∀ cfgs hpath, (McpHost.init cfgs hpath).approvalTimeout = 300000) := by
  constructor
  · refine ⟨createApprovalRequest now st.approvalTimeout rand request pc, ?_, rfl, rfl, rfl⟩
    simp only [callTool, ha, hr, Bool.not_true, Bool.false_eq_true, if_false, if_true]
    exact lookupA_insertA_self st.pendingApprovals _ _
  · intro cfgs hpath
    rfl

/-- Witness for C9: a HIGH-risk call on a freshly constructed host parks a
ticket expiring exactly 300000 ms after its creation instant 1000. -/
theorem approval_ticket_expiry_default_timeout_witness :
    highRiskDecision.allowed = true ∧ highRiskDecision.requiresApproval = true ∧
    highRiskDecision.riskLevel = .high ∧
    (∃ t, lookupA (callTool (McpHost.init [] false) 1000 (.ok highRiskDecision)
          (fun _ => .ok "sent") "z" sampleRequest).state.pendingApprovals
          ("approval_" ++ toString 1000 ++ "_" ++ "z") = some t ∧
        t.createdAt = 1000 ∧ t.expiresAt = 1000 + 300000) := by
  refine ⟨by decide, by decide, by decide, ?_⟩
  obtain ⟨⟨t, hl, hc, he, _⟩, _⟩ :=
    approval_ticket_expiry_default_timeout (McpHost.init [] false) 1000
      (fun _ => .ok "sent") "z" sampleRequest highRiskDecision (by decide) (by decide)
  exact ⟨t, hl, hc, by rw [he, hc]; rfl⟩

/-- C3: on `allowed = true ∧ requiresApproval = true`, `callTool` parks a
pending ticket in the ledger, performs no subprocess tool invocation, and
answers with `approvalRequired = true`, the ticket id and its expiry instead
of a result; the parked request is the one a later `approveToolCall` on that
ticket id hands to the execution path. -/
theorem callTool_approval_parks_request
    (st : HostState) (now : Nat) (exec : ExecOracle) (rand : String)
    (request : ToolCallRequest) (pc : PermissionCheckResult)
    (ha : pc.allowed = true) (hr : pc.requiresApproval = true) :
    callTool st now (.ok pc) exec rand request =
      { resp := { requestId := request.requestId, success := false
                  data := some (.approvalInfo ("approval_" ++ toString now ++ "_" ++ rand)
                            (now + st.approvalTimeout) request pc)
                  error := some "Approval required", executionTime := 0
                  approvalRequired := true, timestamp := now }
        state := { st with pendingApprovals := (insertA st.pendingApprovals
                     ("approval_" ++ toString now ++ "_" ++ rand)
                     (createApprovalRequest now st.approvalTimeout rand request pc)) }
        events := [] } ∧
    (∀ now₂ exec₂ actor, ¬ (now + st.approvalTimeout < now₂) →
        (approveToolCall (callTool st now (.ok pc) exec rand request).state now₂ exec₂
            ("approval_" ++ toString now ++ "_" ++ rand) actor).events =
          (executeTool st.servers exec₂ request).2) := by
  have hcall : callTool st now (.ok pc) exec rand request =
      { resp := { requestId := request.requestId, success := false
                  data := some (.approvalInfo ("approval_" ++ toString now ++ "_" ++ rand)
                            (now + st.approvalTimeout) request pc)
                  error := some "Approval required", executionTime := 0
                  approvalRequired := true, timestamp := now }
        state := { st with pendingApprovals := (insertA st.pendingApprovals
                     ("approval_" ++ toString now ++ "_" ++ rand)
                     (createApprovalRequest now st.approvalTimeout rand request pc)) }
        events := [] } := by
    simp only [callTool, ha, hr, Bool.not_true, Bool.false_eq_true, if_false, if_true]
    rfl
  refine ⟨hcall, ?_⟩
  intro now₂ exec₂ actor hexp
  rw [hcall]
  simp only [approveToolCall]
  rw [lookupA_insertA_self]
  simp only [createApprovalRequest]
  rw [if_neg (by simp), if_neg (by simpa using hexp)]
  rcases hE : executeTool st.servers exec₂ request with ⟨res, evs⟩
  cases res <;> simp [hE]

/-- Witness for C3: concrete HIGH-risk call is parked; approving within the
window routes the parked request (here: to no server, so the trace is empty
but equal to the direct execution trace). -/
theorem callTool_approval_parks_request_witness :
    highRiskDecision.allowed = true ∧ highRiskDecision.requiresApproval = true ∧
    (callTool (McpHost.init [] false) 7 (.ok highRiskDecision)
        (fun _ => .ok "sent") "w" sampleRequest).resp.approvalRequired = true ∧
    ¬ (7 + (McpHost.init [] false).approvalTimeout < 8) ∧
    (approveToolCall (callTool (McpHost.init [] false) 7 (.ok highRiskDecision)
          (fun _ => .ok "sent") "w" sampleRequest).state 8 (fun _ => .ok "sent")
        ("approval_" ++ toString 7 ++ "_" ++ "w") "alice").events =
      (executeTool (McpHost.init [] false).servers (fun _ => .ok "sent") sampleRequest).2 := by
  obtain ⟨h1, h2⟩ :=
    callTool_approval_parks_request (McpHost.init [] false) 7 (fun _ => .ok "sent") "w"
      sampleRequest highRiskDecision (by decide) (by decide)
  refine ⟨by decide, by decide, ?_, by decide, h2 8 (fun _ => .ok "sent") "alice" (by decide)⟩
  rw [h1]

/-- When no registered server advertises the tool, `executeTool` throws the
`No MCP server found` message. -/
theorem executeTool_no_server (servers : List (String × McpServerInstance))
    (exec : ExecOracle) (request : ToolCallRequest)
    (h : servers.find? (fun p => p.2.tools.any (fun t => t.name == request.toolName)) = none) :
    (executeTool servers exec request).1 =
      .error ("No MCP server found for tool: " ++ request.toolName) := by
  simp only [executeTool, h]

/-- C10: `callTool` is total at its boundary — for every oracle outcome
(permission check throwing or denying, tool unknown to every connected
server, execution throwing, execution succeeding) it returns a
`ToolCallResponse` echoing the request's `requestId` with a success flag, a
timestamp, an executionTime, and on each failure path the underlying error
message in `error`. -/
theorem callTool_total_uniform_response
    (st : HostState) (now : Nat) (check : Except String PermissionCheckResult)
    (exec : ExecOracle) (rand : String) (request : ToolCallRequest) :
    ((callTool st now check exec rand request).resp.requestId = request.requestId ∧
     (callTool st now check exec rand request).resp.timestamp = now ∧
     (callTool st now check exec rand request).resp.executionTime = 0 ∧
     ((callTool st now check exec rand request).resp.success = true ∨
       ∃ m, (callTool st now check exec rand request).resp.error = some m) ∧
     (∀ m, check = .error m →
         (callTool st now check exec rand request).resp.success = false ∧
         (callTool st now check exec rand request).resp.error = some m) ∧
     (∀ pc, check = .ok pc → pc.allowed = true → pc.requiresApproval = false →
         (∀ m, (executeTool st.servers exec request).1 = .error m →
             (callTool st now check exec rand request).resp.success = false ∧
             (callTool st now check exec rand request).resp.error = some m) ∧
         (∀ v, (executeTool st.servers exec request).1 = .ok v →
             (callTool st now check exec rand request).resp.success = true ∧
             (callTool st now check exec rand request).resp.data = some (.result v)))) ∧
    (st.servers.find? (fun p => p.2.tools.any (fun t => t.name == request.toolName)) = none →
        (executeTool st.servers exec request).1 =
          .error ("No MCP server found for tool: " ++ request.toolName)) := by
  refine ⟨?_, fun h => executeTool_no_server st.servers exec request h⟩
  rcases check with m | pc
  · have hred : callTool st now (.error m) exec rand request =
        { resp := { requestId := request.requestId, success := false, data := none,
                    error := some m, executionTime := 0, approvalRequired := false,
                    timestamp := now }
          state := st, events := [] } := by
      simp [callTool]
    rw [hred]
    refine ⟨rfl, rfl, rfl, Or.inr ⟨m, rfl⟩, ?_, ?_⟩
    · intro m' hm'
      injection hm' with h
      exact ⟨rfl, by rw [h]⟩
    · intro pc' hpc'
      simp at hpc'
  · by_cases hA : pc.allowed = true
    · by_cases hR : pc.requiresApproval = true
      · have hred : callTool st now (.ok pc) exec rand request =
            { resp := { requestId := request.requestId, success := false
                        data := some (.approvalInfo ("approval_" ++ toString now ++ "_" ++ rand)
                                  (now + st.approvalTimeout) request pc)
                        error := some "Approval required", executionTime := 0
                        approvalRequired := true, timestamp := now }
              state := { st with pendingApprovals := (insertA st.pendingApprovals
                           ("approval_" ++ toString now ++ "_" ++ rand)
                           (createApprovalRequest now st.approvalTimeout rand request pc)) }
              events := [] } := by
          simp only [callTool, hA, hR, Bool.not_true, Bool.false_eq_true, if_false, if_true]
          rfl
        rw [hred]
        refine ⟨rfl, rfl, rfl, Or.inr ⟨_, rfl⟩, ?_, ?_⟩
        · intro m' hm'
          simp at hm'
        · intro pc' hpc' hA2 hR2
          injection hpc' with h
          subst h
          rw [hR] at hR2
          cases hR2
      · have hR' : pc.requiresApproval = false := by
          cases h : pc.requiresApproval
          · rfl
          · exact absurd h hR
        rcases hE : executeTool st.servers exec request with ⟨res, evs⟩
        cases res with
        | ok v =>
            have hred : callTool st now (.ok pc) exec rand request =
                { resp := { requestId := request.requestId, success := true,
                            data := some (.result v), error := none, executionTime := 0,
                            approvalRequired := false, timestamp := now }
                  state := st
                  events := evs ++ [.audit request.toolName pc .approved] } := by
              simp [callTool, hA, hR', hE]
            rw [hred]
            refine ⟨rfl, rfl, rfl, Or.inl rfl, ?_, ?_⟩
            · intro m' hm'
              simp at hm'
            · intro pc' hpc' hA2 hR2
              refine ⟨?_, ?_⟩
              · intro m' hm'
                simp at hm'
              · intro v' hv'
                simp at hv'
                subst hv'
                exact ⟨rfl, rfl⟩
        | error m =>
            have hred : callTool st now (.ok pc) exec rand request =
                { resp := { requestId := request.requestId, success := false,
                            data := none, error := some m, executionTime := 0,
                            approvalRequired := false, timestamp := now }
                  state := st, events := evs } := by
              simp [callTool, hA, hR', hE]
            rw [hred]
            refine ⟨rfl, rfl, rfl, Or.inr ⟨m, rfl⟩, ?_, ?_⟩
            · intro m' hm'
              simp at hm'
            · intro pc' hpc' hA2 hR2
              refine ⟨?_, ?_⟩
              · intro m' hm'
                simp at hm'
                subst hm'
                exact ⟨rfl, rfl⟩
              · intro v' hv'
                simp at hv'
    · have hA' : pc.allowed = false := by
        cases h : pc.allowed
        · rfl
        · exact absurd h hA
      have hred : callTool st now (.ok pc) exec rand request =
          { resp := { requestId := request.requestId, success := false, data := none,
                      error := some ("Permission denied: " ++ pc.reason),
                      executionTime := 0, approvalRequired := pc.requiresApproval,
                      timestamp := now }
            state := st
            events := [.audit request.toolName pc .denied] } := by
        simp [callTool, hA']
      rw [hred]
      refine ⟨rfl, rfl, rfl, Or.inr ⟨_, rfl⟩, ?_, ?_⟩
      · intro m' hm'
        simp at hm'
      · intro pc' hpc' hA2 hR2
        injection hpc' with h
        subst h
        rw [hA'] at hA2
        cases hA2


/-- Witness for C10: concrete check of the failure paths — evaluator throw,
unknown tool, and the requestId echo. -/
theorem callTool_total_uniform_response_witness :
    (callTool staleHost 5 (.error "middleware crashed") (fun _ => .ok "v") "r"
        sampleRequest).resp.error = some "middleware crashed" ∧
    (callTool staleHost 5 (.ok lowRiskDecision) (fun _ => .ok "v") "r"
        sampleRequest).resp.error =
      some ("No MCP server found for tool: " ++ sampleRequest.toolName) ∧
    (callTool staleHost 5 (.ok lowRiskDecision) (fun _ => .ok "v") "r"
        sampleRequest).resp.requestId = sampleRequest.requestId := by
  obtain ⟨⟨-, -, -, -, herr, -⟩, -⟩ :=
    callTool_total_uniform_response staleHost 5 (.error "middleware crashed")
      (fun _ => .ok "v") "r" sampleRequest
  obtain ⟨⟨hid, -, -, -, -, hok⟩, hfind⟩ :=
    callTool_total_uniform_response staleHost 5 (.ok lowRiskDecision)
      (fun _ => .ok "v") "r" sampleRequest
  refine ⟨(herr "middleware crashed" rfl).2, ?_, hid⟩
  exact ((hok lowRiskDecision rfl (by decide) (by decide)).1 _ (hfind (by decide))).2

/-- C2 counterexample: `staleTicket` is pending and its `expiresAt = 1000`
lies in the past at resolution instant 2000, yet `rejectToolCall` returns
normally instead of failing with an "expired" condition — the reject path has
no expiry check. -/
theorem reject_after_expiry_succeeds :
    staleTicket.status = .pending ∧
    staleTicket.expiresAt < 2000 ∧
    (rejectToolCall staleHost 2000 "t1" "operator").res = .ok () := by
  decide

/-- C2 amended: only the approve action checks expiry — `approveToolCall` on
a pending ticket past `expiresAt` fails with "Approval request expired" and,
as a side effect, marks the stored ticket expired; `rejectToolCall` performs
no expiry check (see the counterexample). -/
theorem approve_after_expiry_fails_marks_expired
    (st : HostState) (now : Nat) (exec : ExecOracle) (approvalId approvedBy : String)
    (t : ApprovalRequest)
    (hl : lookupA st.pendingApprovals approvalId = some t)
    (hp : t.status = .pending)
    (he : t.expiresAt < now) :
    (approveToolCall st now exec approvalId approvedBy).res =
      .error "Approval request expired" ∧
    lookupA (approveToolCall st now exec approvalId approvedBy).state.pendingApprovals
      approvalId = some { t with status := .expired } ∧
    (approveToolCall st now exec approvalId approvedBy).events = [] := by
  have hred : approveToolCall st now exec approvalId approvedBy =
      { res := .error "Approval request expired"
        state := { st with pendingApprovals := (insertA st.pendingApprovals approvalId
                     { t with status := .expired }) }
        events := [] } := by
    simp only [approveToolCall, hl]
    rw [if_neg (by simp [hp]), if_pos he]
  rw [hred]
  exact ⟨rfl, lookupA_insertA_self st.pendingApprovals _ _, rfl⟩

/-- Witness for the C2 amended theorem at the concrete stale ticket. -/
theorem approve_after_expiry_fails_marks_expired_witness :
    lookupA staleHost.pendingApprovals "t1" = some staleTicket ∧
    staleTicket.status = .pending ∧ staleTicket.expiresAt < 2000 ∧
    (approveToolCall staleHost 2000 (fun _ => .ok "v") "t1" "operator").res =
      .error "Approval request expired" := by
  refine ⟨by decide, by decide, by decide, ?_⟩
  exact (approve_after_expiry_fails_marks_expired staleHost 2000 (fun _ => .ok "v")
    "t1" "operator" staleTicket (by decide) (by decide) (by decide)).1

/-- After any resolution attempt on a present, pending ticket, that ticket id
is either gone from the ledger or holds a non-pending ticket. -/
theorem resolveTicket_post_not_pending
    (st : HostState) (approvalId : String) (t : ApprovalRequest)
    (hl : lookupA st.pendingApprovals approvalId = some t) (hp : t.status = .pending)
    (a : ResolveAction) (now : Nat) (exec : ExecOracle) (actor : String) :
    lookupA (resolveTicket a st now exec approvalId actor).state.pendingApprovals
        approvalId = none ∨
    (∃ t', lookupA (resolveTicket a st now exec approvalId actor).state.pendingApprovals
        approvalId = some t' ∧ t'.status ≠ .pending) := by
  cases a with
  | reject =>
      left
      simp only [resolveTicket, rejectToolCall, hl, hp]
      simp only [bne_self_eq_false, Bool.false_eq_true, if_false]
      exact lookupA_eraseA_self _ _
  | approve =>
      by_cases he : t.expiresAt < now
      · right
        simp only [resolveTicket, approveToolCall, hl, hp]
        simp only [bne_self_eq_false, Bool.false_eq_true, if_false, if_pos he]
        exact ⟨{ t with status := .expired }, lookupA_insertA_self _ _ _, by simp⟩
      · simp only [resolveTicket, approveToolCall, hl, hp]
        simp only [bne_self_eq_false, Bool.false_eq_true, if_false, if_neg he]
        rcases hE : executeTool st.servers exec t.toolCall with ⟨res, evs⟩
        cases res with
        | error m =>
            right
            simp only [hE]
            exact ⟨_, lookupA_insertA_self _ _ _, by simp⟩
        | ok v =>
            left
            simp only [hE]
            exact lookupA_eraseA_self _ _

/-- A resolution attempt on an absent or already-terminal ticket fails
without changing the state and without any subprocess invocation. -/
theorem resolveTicket_not_pending_noop
    (st : HostState) (approvalId : String)
    (h : lookupA st.pendingApprovals approvalId = none ∨
         ∃ t', lookupA st.pendingApprovals approvalId = some t' ∧ t'.status ≠ .pending)
    (a : ResolveAction) (now : Nat) (exec : ExecOracle) (actor : String) :
    resolveTicket a st now exec approvalId actor =
      { ok := false, state := st, events := [] } := by
  rcases h with h | ⟨t', hl, hs⟩
  · cases a <;> simp [resolveTicket, approveToolCall, rejectToolCall, h, Except.isOk, Except.toBool]
  · have hbne : (t'.status != ApprovalStatus.pending) = true := by
      simp [hs]
    cases a <;>
      simp [resolveTicket, approveToolCall, rejectToolCall, hl, hbne, Except.isOk, Except.toBool]

/-- C6: resolving the same approval ticket twice always fails on the second
resolution, whatever pair of actions was requested; the second attempt leaves
the state produced by the first resolution unchanged and performs no
subprocess invocation, so an approved-and-executed call is never executed a
second time. -/
theorem second_resolution_always_fails
    (st : HostState) (approvalId : String) (t : ApprovalRequest)
    (hl : lookupA st.pendingApprovals approvalId = some t) (hp : t.status = .pending)
    (a₁ a₂ : ResolveAction) (now₁ now₂ : Nat) (exec₁ exec₂ : ExecOracle)
    (actor₁ actor₂ : String) :
    (resolveTicket a₂ (resolveTicket a₁ st now₁ exec₁ approvalId actor₁).state
        now₂ exec₂ approvalId actor₂).ok = false ∧
    (resolveTicket a₂ (resolveTicket a₁ st now₁ exec₁ approvalId actor₁).state
        now₂ exec₂ approvalId actor₂).state =
      (resolveTicket a₁ st now₁ exec₁ approvalId actor₁).state ∧
    (resolveTicket a₂ (resolveTicket a₁ st now₁ exec₁ approvalId actor₁).state
        now₂ exec₂ approvalId actor₂).events = [] := by
  have hpost := resolveTicket_post_not_pending st approvalId t hl hp a₁ now₁ exec₁ actor₁
  have hnoop := resolveTicket_not_pending_noop
    (resolveTicket a₁ st now₁ exec₁ approvalId actor₁).state approvalId hpost
    a₂ now₂ exec₂ actor₂
  rw [hnoop]
  exact ⟨rfl, rfl, rfl⟩

/-- Witness for C6: reject then approve on the concrete stale ticket — the
second resolution fails and changes nothing. -/
theorem second_resolution_always_fails_witness :
    lookupA staleHost.pendingApprovals "t1" = some staleTicket ∧
    staleTicket.status = .pending ∧
    (resolveTicket .approve (resolveTicket .reject staleHost 500 (fun _ => .ok "v")
        "t1" "alice").state 600 (fun _ => .ok "v") "t1" "bob").ok = false := by
  refine ⟨by decide, by decide, ?_⟩
  exact (second_resolution_always_fails staleHost "t1" staleTicket (by decide) (by decide)
    .reject .approve 500 600 (fun _ => .ok "v") (fun _ => .ok "v") "alice" "bob").1

/-- C7 counterexample: approving the stale pending ticket at instant 2000
makes its terminal transition to `expired`, yet the ticket still occupies its
entry in the `pendingApprovals` map — terminal does not imply removed from
the live ledger. -/
theorem expired_ticket_remains_in_ledger :
    (approveToolCall staleHost 2000 (fun _ => .ok "v") "t1" "op").res =
      .error "Approval request expired" ∧
    lookupA (approveToolCall staleHost 2000 (fun _ => .ok "v") "t1" "op").state.pendingApprovals
      "t1" = some { staleTicket with status := .expired } ∧
    ({ staleTicket with status := ApprovalStatus.expired }).status ≠ .pending := by
  decide

/-- C7 amended: a ticket makes at most one terminal transition out of
`pending` and is immutable once terminal — both resolution entry points fail
on a non-pending ticket without touching the state — and a *successful*
resolution removes the ticket from the ledger; but a ticket whose terminal
transition happened inside a failed resolution (expiry discovered on approve,
or an execution throw after approval) remains in the map (see the
counterexample). -/
theorem terminal_ticket_immutable
    (st : HostState) (approvalId : String) (t : ApprovalRequest)
    (hl : lookupA st.pendingApprovals approvalId = some t)
    (ht : t.status ≠ .pending) :
    (∀ now exec actor, approveToolCall st now exec approvalId actor =
        { res := .error ("Approval already " ++ t.status.label), state := st, events := [] }) ∧
    (∀ now actor, rejectToolCall st now approvalId actor =
        { res := .error ("Approval already " ++ t.status.label), state := st, events := [] }) ∧
    (∀ st₂ t₂ a now exec actor,
        lookupA st₂.pendingApprovals approvalId = some t₂ → t₂.status = .pending →
        (resolveTicket a st₂ now exec approvalId actor).ok = true →
        lookupA (resolveTicket a st₂ now exec approvalId actor).state.pendingApprovals
          approvalId = none) := by
  have hbne : (t.status != ApprovalStatus.pending) = true := by simp [ht]
  refine ⟨?_, ?_, ?_⟩
  · intro now exec actor
    simp [approveToolCall, hl, hbne]
  · intro now actor
    simp [rejectToolCall, hl, hbne]
  · intro st₂ t₂ a now exec actor hl₂ hp₂ hok
    cases a with
    | reject =>
        simp only [resolveTicket, rejectToolCall, hl₂, hp₂] at hok ⊢
        simp only [bne_self_eq_false, Bool.false_eq_true, if_false] at hok ⊢
        exact lookupA_eraseA_self _ _
    | approve =>
        by_cases he : t₂.expiresAt < now
        · exfalso
          simp [resolveTicket, approveToolCall, hl₂, hp₂, he, Except.isOk, Except.toBool] at hok
        · rcases hE : executeTool st₂.servers exec t₂.toolCall with ⟨res, evs⟩
          cases res with
          | error m =>
              exfalso
              simp [resolveTicket, approveToolCall, hl₂, hp₂, he, hE,
                Except.isOk, Except.toBool] at hok
          | ok v =>
              simp only [resolveTicket, approveToolCall, hl₂, hp₂]
              simp only [bne_self_eq_false, Bool.false_eq_true, if_false, if_neg he, hE]
              exact lookupA_eraseA_self _ _

/-- Witness for the C7 amended theorem: on the ledger state produced by the
failed approve of the stale ticket, whose ticket is terminal (`expired`),
rejecting fails and changes nothing. -/
theorem terminal_ticket_immutable_witness :
    lookupA (approveToolCall staleHost 2000 (fun _ => .ok "v") "t1" "op").state.pendingApprovals
      "t1" = some { staleTicket with status := .expired } ∧
    ({ staleTicket with status := ApprovalStatus.expired }).status ≠ .pending ∧
    rejectToolCall (approveToolCall staleHost 2000 (fun _ => .ok "v") "t1" "op").state
        3000 "t1" "op2" =
      { res := .error ("Approval already " ++
          ({ staleTicket with status := ApprovalStatus.expired }).status.label)
        state := (approveToolCall staleHost 2000 (fun _ => .ok "v") "t1" "op").state
        events := [] } := by
  refine ⟨by decide, by decide, ?_⟩
  exact (terminal_ticket_immutable
    (approveToolCall staleHost 2000 (fun _ => .ok "v") "t1" "op").state "t1"
    { staleTicket with status := .expired } (by decide) (by decide)).2.1 3000 "op2"

/-- C4 counterexample: at a read taking place at instant 2000 the stale
ticket's `expiresAt = 1000` is already in the past, yet
`getPendingApprovals` — which consults no clock at all — still returns it:
there is no lazy expiry filtering on read. -/
theorem pending_list_returns_time_expired_ticket :
    getPendingApprovals staleHost = [staleTicket] ∧
    staleTicket.expiresAt < 2000 ∧
    staleTicket.status = .pending := by
  decide

/-- C4 amended: `getPendingApprovals` returns exactly the stored tickets
whose `status` is still `pending` — tickets in a terminal status are
excluded — but it applies no expiry-time check, so a silently expired ticket
(past `expiresAt`, never resolved) is still returned (see the
counterexample). -/
theorem getPendingApprovals_filters_status_only
    (st : HostState) (t : ApprovalRequest) :
    t ∈ getPendingApprovals st ↔
      (∃ k, (k, t) ∈ st.pendingApprovals) ∧ t.status = .pending := by
  simp only [getPendingApprovals, List.mem_filter, List.mem_map, beq_iff_eq]
  constructor
  · rintro ⟨⟨⟨k, v⟩, hm, rfl⟩, hs⟩
    exact ⟨⟨k, hm⟩, hs⟩
  · rintro ⟨⟨k, hm⟩, hs⟩
    exact ⟨⟨(k, t), hm, rfl⟩, hs⟩

/-- Witness for the C4 amended theorem at the concrete stale ledger. -/
theorem getPendingApprovals_filters_status_only_witness :
    staleTicket ∈ getPendingApprovals staleHost ∧
    ¬ ({ staleTicket with status := ApprovalStatus.rejected } ∈
        getPendingApprovals staleHost) := by
  constructor
  · exact (getPendingApprovals_filters_status_only staleHost staleTicket).2
      ⟨⟨"t1", by decide⟩, by decide⟩
  · intro hmem
    have h := (getPendingApprovals_filters_status_only staleHost
      { staleTicket with status := ApprovalStatus.rejected }).1 hmem
    exact absurd h.2 (by decide)

/-- Flipping the flag of the descriptor `find?` located and then restoring its
original value is the identity on the descriptor list. -/
theorem setConfigEnabled_roundtrip (l : List McpServerConfig) (name : String) (b : Bool)
    (cfg : McpServerConfig) (h : l.find? (fun c => c.name == name) = some cfg) :
    setConfigEnabled (setConfigEnabled l name b) name cfg.enabled = l := by
  induction l with
  | nil => simp at h
  | cons c rest ih =>
      by_cases hc : c.name = name
      · have hcfg : cfg = c := by
          rw [List.find?_cons_of_pos _ (by simp [hc])] at h
          exact (Option.some.injEq _ _ ▸ h.symm)
        subst hcfg
        simp [setConfigEnabled, hc]
        rw [← hc]
      · have h' : rest.find? (fun c => c.name == name) = some cfg := by
          rwa [List.find?_cons_of_neg _ (by simp [hc])] at h
        simp [setConfigEnabled, hc, ih h']

/-- C5: `setServerEnabled` is idempotent — setting the value the descriptor
already has returns without reconnecting, disconnecting, or persisting — and
transactional: an enable whose connection fails leaves the whole state
exactly as it was and propagates the error; a persist failure (after a
successful connect on enable, or after the disconnect on disable) restores
the `enabled` flag exactly to its prior value, leaves the persisted snapshot
untouched, and propagates the error; a fully successful enable persists the
updated snapshot only then. -/
theorem setServerEnabled_idempotent_transactional
    (st : HostState) (name : String) (cfg : McpServerConfig)
    (hfind : st.serverConfigs.find? (fun c => c.name == name) = some cfg) :
    (∀ co po, setServerEnabled st co po name cfg.enabled = (.ok (), st)) ∧
    (∀ e po, cfg.enabled = false →
        setServerEnabled st (.error e) po name true = (.error e, st)) ∧
    (∀ tools e, cfg.enabled = false → st.hasStateFilePath = true →
        (setServerEnabled st (.ok tools) (.error e) name true).1 = .error e ∧
        (setServerEnabled st (.ok tools) (.error e) name true).2.serverConfigs =
          st.serverConfigs ∧
        (setServerEnabled st (.ok tools) (.error e) name true).2.stateFile = st.stateFile) ∧
    (∀ co e, cfg.enabled = true → st.hasStateFilePath = true →
        (setServerEnabled st co (.error e) name false).1 = .error e ∧
        (setServerEnabled st co (.error e) name false).2.serverConfigs =
          st.serverConfigs ∧
        (setServerEnabled st co (.error e) name false).2.stateFile = st.stateFile) ∧
    (∀ tools, cfg.enabled = false → st.hasStateFilePath = true →
        (setServerEnabled st (.ok tools) (.ok ()) name true).1 = .ok () ∧
        (setServerEnabled st (.ok tools) (.ok ()) name true).2.stateFile =
          some ((setConfigEnabled st.serverConfigs name true).map
            (fun c => (c.name, c.enabled)))) := by
  refine ⟨?_, ?_, ?_, ?_, ?_⟩
  · intro co po
    simp [setServerEnabled, hfind]
  · intro e po hen
    have hrt := setConfigEnabled_roundtrip st.serverConfigs name true cfg hfind
    rw [hen] at hrt
    simp [setServerEnabled, hfind, hen, connectServer, hrt]
  · intro tools e hen hpath
    have hrt := setConfigEnabled_roundtrip st.serverConfigs name true cfg hfind
    rw [hen] at hrt
    simp [setServerEnabled, hfind, hen, connectServer, persistServerState, hpath, hrt]
  · intro co e hen hpath
    have hrt := setConfigEnabled_roundtrip st.serverConfigs name false cfg hfind
    rw [hen] at hrt
    simp [setServerEnabled, hfind, hen, disconnectServer, persistServerState, hpath, hrt]
  · intro tools hen hpath
    simp [setServerEnabled, hfind, hen, connectServer, persistServerState, hpath]

/-- A config with one disabled filesystem server, for the C5 witness. -/
def fsConfig : McpServerConfig :=
  { name := "fs", command := "npx", args := ["mcp-fs"], enabled := false, description := none }

/-- Host over `fsConfig` with a state-file path configured. -/
def toggleHost : HostState := McpHost.init [fsConfig] true

/-- Witness for C5: on the concrete host, re-setting the current value is a
no-op and a failed enable returns the untouched state with the error. -/
theorem setServerEnabled_idempotent_transactional_witness :
    toggleHost.serverConfigs.find? (fun c => c.name == "fs") = some fsConfig ∧
    setServerEnabled toggleHost (.ok []) (.ok ()) "fs" false = (.ok (), toggleHost) ∧
    setServerEnabled toggleHost (.error "spawn ENOENT") (.ok ()) "fs" true =
      (.error "spawn ENOENT", toggleHost) := by
  have h := setServerEnabled_idempotent_transactional toggleHost "fs" fsConfig (by decide)
  exact ⟨by decide, h.1 (.ok []) (.ok ()), h.2.1 "spawn ENOENT" (.ok ()) rfl⟩

/-- Folding connection attempts over descriptors none of which is named `k`
leaves the registry entry at `k` unchanged. -/
theorem connectAll_fold_untouched (outcomes : ConnectOracle) (L : List McpServerConfig)
    (s : HostState) (k : String) (hk : k ∉ L.map (fun c => c.name)) :
    lookupA ((L.foldl
        (fun s config => (connectServer s (outcomes config.name) config).2) s).servers) k =
      lookupA s.servers k := by
  induction L generalizing s with
  | nil => rfl
  | cons c rest ih =>
      have hkc : k ≠ c.name := by
        intro h
        exact hk (by simp [h])
      have hkrest : k ∉ rest.map (fun c => c.name) := by
        intro h
        exact hk (by simp [h])
      rw [List.foldl_cons]
      rw [ih _ hkrest]
      rcases ho : outcomes c.name with e | tools
      · simp [connectServer, ho]
      · simp [connectServer, ho, lookupA_insertA_ne _ _ _ _ hkc]

/-- With pairwise-distinct descriptor names, a descriptor whose connection
attempt succeeds ends up registered with its advertised tools, regardless of
what happens to the other attempts. -/
theorem connectAll_fold_connects (outcomes : ConnectOracle) (L : List McpServerConfig)
    (s : HostState) (cfg : McpServerConfig) (tools : List ToolDef)
    (hnd : (L.map (fun c => c.name)).Nodup) (hmem : cfg ∈ L)
    (hok : outcomes cfg.name = .ok tools) :
    lookupA ((L.foldl
        (fun s config => (connectServer s (outcomes config.name) config).2) s).servers)
      cfg.name = some { config := cfg, connected := true, tools := tools } := by
  induction L generalizing s with
  | nil => cases hmem
  | cons c rest ih =>
      rcases List.mem_cons.mp hmem with rfl | hmem'
      · have hnotin : cfg.name ∉ rest.map (fun c => c.name) := by
          intro h
          exact (List.nodup_cons.mp hnd).1 h
        rw [List.foldl_cons]
        rw [connectAll_fold_untouched outcomes rest _ _ hnotin]
        simp [connectServer, hok, lookupA_insertA_self]
      · rw [List.foldl_cons]
        exact ih ((connectServer s (outcomes c.name) c).2) (List.nodup_cons.mp hnd).2 hmem'

/-- Three enabled descriptors for the C8 scenario. -/
def triConfigs : List McpServerConfig :=
  [ { name := "fs", command := "npx", args := ["mcp-fs"], enabled := true, description := none },
    { name := "browser", command := "bad-cmd", args := [], enabled := true, description := none },
    { name := "email", command := "npx", args := ["mcp-email"], enabled := true,
      description := none } ]

/-- Host configured with the three descriptors, none connected yet. -/
def triHost : HostState := McpHost.init triConfigs false

/-- Connection outcomes for the scenario: the browser server's launch command
is invalid and its spawn fails; the other two connect and advertise one tool
each. -/
def triOutcomes : ConnectOracle := fun n =>
  if n == "browser" then .error "spawn bad-cmd ENOENT"
  else if n == "fs" then .ok [{ name := "read-file", description := "" }]
  else .ok [{ name := "send-email", description := "" }]

/-- C8: `connectAll` attempts every enabled descriptor and one failure never
prevents the others — any enabled descriptor with pairwise-distinct names
whose own attempt succeeds ends up connected with its tools, whatever the
other outcomes; in the concrete 3-server scenario with one invalid launch
command, `getStatus` afterwards reports `connected = 2` and still lists the
failing server in the catalog with `connected = false` and `toolsCount = 0`. -/
theorem connectAll_partial_failure_isolated :
    (∀ (st : HostState) (outcomes : ConnectOracle) (cfg : McpServerConfig)
        (tools : List ToolDef),
        (st.serverConfigs.map (fun c => c.name)).Nodup →
        cfg ∈ st.serverConfigs → cfg.enabled = true →
        outcomes cfg.name = .ok tools →
        lookupA (connectAll st outcomes).servers cfg.name =
          some { config := cfg, connected := true, tools := tools }) ∧
    (getStatus (connectAll triHost triOutcomes)).connected = 2 ∧
    (∃ entry ∈ (getStatus (connectAll triHost triOutcomes)).servers,
        entry.name = "browser" ∧ entry.connected = false ∧ entry.toolsCount = 0) := by
  refine ⟨?_, by decide, by decide⟩
  intro st outcomes cfg tools hnd hmem hen hok
  have hmemf : cfg ∈ st.serverConfigs.filter (fun c => c.enabled) :=
    List.mem_filter.mpr ⟨hmem, by simp [hen]⟩
  have hndf : ((st.serverConfigs.filter (fun c => c.enabled)).map
      (fun c => c.name)).Nodup :=
    ((List.filter_sublist st.serverConfigs).map _).nodup hnd
  exact connectAll_fold_connects outcomes _ st cfg tools hndf hmemf hok

/-- Witness for C8: the general part applied to the scenario's filesystem
server, which connects despite the browser server's failure. -/
theorem connectAll_partial_failure_isolated_witness :
    lookupA (connectAll triHost triOutcomes).servers "fs" =
      some { config := { name := "fs", command := "npx", args := ["mcp-fs"],
                         enabled := true, description := none }
             connected := true
             tools := [{ name := "read-file", description := "" }] } := by
  exact connectAll_partial_failure_isolated.1 triHost triOutcomes
    { name := "fs", command := "npx", args := ["mcp-fs"], enabled := true,
      description := none }
    [{ name := "read-file", description := "" }]
    (by decide) (by decide) rfl rfl
